import Mathlib

/-!
Verification of the media-sampling and analysis-orchestration pipeline of the
`ContentAnalyzer` application (single Python source, `safety.ipynb`).

The embedding is shallow: each method of the `ContentAnalyzer` class is
translated into a Lean definition over explicit environments.  Effectful
steps that may raise a Python exception are modelled with `Except String`
values supplied by the environment; the `try/except` blocks of the source
become `match`es on those values.  Frame rasters are opaque (a type
parameter `α`); the cv2 decode boundary is a function from frame indices to
a read outcome.  Audio DSP (librosa) is library code not present in the
repository, so it is modelled from the specification over real numbers,
while the string formatting of features (which is repository code, the
f-string of `analyze_audio`) is modelled exactly over rationals.
-/

namespace SafetyApp

/-! ### Fixed-precision decimal formatting (Python `.Nf` format spec) -/

/-- Rounding of the exact fraction `(num * scale) / den` to the nearest
integer with ties going to the even neighbour, the rounding used by Python
fixed-point float formatting.  Written over `ℤ`/`ℕ` arithmetic so that it
evaluates inside the kernel. -/
def roundHalfEvenScaled (num : ℤ) (den : ℕ) (scale : ℕ) : ℤ :=
  let N := num * Int.ofNat scale
  let f := Int.fdiv N (Int.ofNat den)
  let r := N - f * Int.ofNat den
  if 2 * r < Int.ofNat den then f
  else if Int.ofNat den < 2 * r then f + 1
  else if f % 2 = 0 then f else f + 1

/-- Left-pads a digit list with zeros to width `d`. -/
def padZeros (s : List Char) (d : Nat) : List Char :=
  List.replicate (d - s.length) '0' ++ s

/-- Python's fixed-point rendering `format(q, '.df')`: scale by `10^d`, round
half-to-even, and print with exactly `d` fractional digits. -/
def formatFixed (d : Nat) (q : ℚ) : String :=
  let n := roundHalfEvenScaled q.num q.den (10 ^ d)
  let sign := if n < 0 then "-" else ""
  let m := n.natAbs
  if d = 0 then sign ++ toString m
  else sign ++ toString (m / 10 ^ d) ++ "." ++ String.mk (padZeros (toString (m % 10 ^ d)).data d)

/-! ### Substring test used to state "the prompt contains ..." facts -/

/-- Boolean prefix test on character lists. -/
def hasPre : List Char → List Char → Bool
  | [], _ => true
  | _ :: _, [] => false
  | p :: ps, c :: cs => p = c && hasPre ps cs

/-- Boolean substring test on character lists. -/
def containsSub (pat : List Char) : List Char → Bool
  | [] => hasPre pat []
  | c :: rest => hasPre pat (c :: rest) || containsSub pat rest

theorem hasPre_append (p r : List Char) : hasPre p (p ++ r) = true := by
  induction p with
  | nil => rfl
  | cons c cs ih => simp [hasPre, ih]

theorem containsSub_middle (pat v : List Char) :
    ∀ u : List Char, containsSub pat (u ++ pat ++ v) = true := by
  intro u
  induction u with
  | nil =>
    cases h : pat ++ v with
    | nil =>
      have hp : pat = [] := by
        cases pat with
        | nil => rfl
        | cons a l => simp at h
      have hv : v = [] := by
        cases v with
        | nil => rfl
        | cons a l => rw [hp] at h; simp at h
      rw [hp, hv]
      rfl
    | cons c rest =>
      simp only [List.nil_append, containsSub, h]
      rw [← h, hasPre_append]
      simp
  | cons c cs ih =>
    have hrw : (c :: cs) ++ pat ++ v = c :: (cs ++ pat ++ v) := by simp
    rw [hrw]
    simp only [containsSub, ih, Bool.or_true]

/-! ### Frame sampling: `ContentAnalyzer.extract_frames` -/

/-- Outcome of one seek-and-read against the cv2 capture handle: the frame was
decoded (`ret = True`), the read reported failure (`ret = False`), or the call
raised a Python exception. -/
inductive ReadResult (α : Type) where
  | ok (frame : α)
  | fail
  | exn
deriving DecidableEq

/-- A decoded video source as seen through the cv2 boundary:
`cap.get(CAP_PROP_FRAME_COUNT)` and seek-and-read at an index. -/
structure VideoSource (α : Type) where
  totalFrames : Nat
  read : Nat → ReadResult α

variable {α : Type}

/-- Python `range(0, stop, step)` for a positive step. -/
def pyRange (stop step : Nat) : List Nat :=
  List.range' 0 ((stop + step - 1) / step) step

/-- The sampling loop of `extract_frames`: visit each index, append the frame
when the read succeeds, break once `max_frames` frames are collected, and
propagate a raised exception.  The source index of each collected frame is
recorded alongside it for specification purposes; the Python list is the
second projection (`framesOf`). -/
def extractLoop (src : VideoSource α) (maxFrames : Nat) :
    List Nat → List (Nat × α) → Except Unit (List (Nat × α))
  | [], frames => .ok frames
  | i :: rest, frames =>
    match src.read i with
    | .exn => .error ()
    | .ok f =>
      let fr := frames ++ [(i, f)]
      if maxFrames ≤ fr.length then .ok fr else extractLoop src maxFrames rest fr
    | .fail =>
      if maxFrames ≤ frames.length then .ok frames else extractLoop src maxFrames rest frames

/-- Result of `extract_frames` together with whether `cap.release()` was
executed on the way out.  The source has no `try/finally` around the loop, so
a raised read skips the release. -/
structure ExtractResult (α : Type) where
  pairs : Except Unit (List (Nat × α))
  released : Bool

/-- Model of `ContentAnalyzer.extract_frames`: `interval = max(1, T // C)`,
visit `range(0, T, interval)`, collect decodable frames up to the cap. -/
def extract_frames (src : VideoSource α) (maxFrames : Nat) : ExtractResult α :=
  let total := src.totalFrames
  let interval := max 1 (total / maxFrames)
  match extractLoop src maxFrames (pyRange total interval) [] with
  | .ok pairs => ⟨.ok pairs, true⟩
  | .error e => ⟨.error e, false⟩

/-- The frame list the Python function returns: frames without their recorded
source indices. -/
def framesOf (r : Except Unit (List (Nat × α))) : Except Unit (List α) :=
  r.map (List.map Prod.snd)

/-! ### Acoustic feature vectors and prompt construction -/

/-- The four scalar descriptors computed by `extract_audio_features`.  The
type parameter lets the analytic model use `ℝ` while the exact prompt
formatter consumes `ℚ` values. -/
structure AcousticFeatures (β : Type) where
  duration : β
  rms_energy : β
  spectral_centroid : β
  zero_crossing_rate : β
deriving DecidableEq

/-- Casting of an exactly-represented feature vector into the real-valued
model. -/
def ofRatFeatures (f : AcousticFeatures ℚ) : AcousticFeatures ℝ :=
  ⟨(f.duration : ℝ), (f.rms_energy : ℝ), (f.spectral_centroid : ℝ), (f.zero_crossing_rate : ℝ)⟩

/-- Literal text of the audio f-string up to the duration value. -/
def apIntro : String :=
  "\n            Analyze these audio characteristics for concerning content:\n            \n            Audio Features:\n            - Duration: "

/-- Literal text between the duration and energy values. -/
def apAfterDur : String := " seconds\n            - Energy Level: "

/-- Literal text between the energy and centroid values. -/
def apAfterEnergy : String := "\n            - Spectral Features: "

/-- Literal text between the centroid and zero-crossing values. -/
def apAfterCentroid : String := "\n            - Voice Patterns: "

/-- Literal text of the audio f-string after the zero-crossing value. -/
def apOutro : String :=
  "\n            \n            Based on training with Bengali audio content:\n            1. Identify any concerning speech patterns\n            2. Detect aggressive or threatening tones\n            3. Analyze emotional indicators\n            4. Note any suspicious audio elements\n            "

/-- The f-string of `analyze_audio`: the four feature values interpolated at
the format specs written in the source, namely duration `:.2f`, energy
`:.4f`, centroid `:.2f`, zero-crossing `:.4f`. -/
def audioPrompt (f : AcousticFeatures ℚ) : String :=
  apIntro ++ formatFixed 2 f.duration
    ++ apAfterDur ++ formatFixed 4 f.rms_energy
    ++ apAfterEnergy ++ formatFixed 2 f.spectral_centroid
    ++ apAfterCentroid ++ formatFixed 4 f.zero_crossing_rate
    ++ apOutro

/-- The audio prompt as the specification describes it (duration AND energy
to 2 decimal places, centroid to 2, zero-crossing to 4).  Kept separate from
`audioPrompt`, which follows the source, so the two renderings can be
compared. -/
def audioPromptClaimed (f : AcousticFeatures ℚ) : String :=
  apIntro ++ formatFixed 2 f.duration
    ++ apAfterDur ++ formatFixed 2 f.rms_energy
    ++ apAfterEnergy ++ formatFixed 2 f.spectral_centroid
    ++ apAfterCentroid ++ formatFixed 4 f.zero_crossing_rate
    ++ apOutro

/-- The fixed instruction string of `analyze_video`. -/
def videoPromptText : String :=
  "\n            Analyze these video frames for signs of harassment or concerning behavior.\n            Focus on:\n            1. Aggressive or threatening movements\n            2. Signs of distress or danger\n            3. Unsafe situations\n            4. Suspicious patterns\n\n            Based on training with Bengali content, provide a detailed assessment.\n            "

/-! ### Acoustic feature extraction over `ℝ`

Modelled from the spec: the librosa feature functions called by
`extract_audio_features` (`librosa.feature.rms`, `spectral_centroid`,
`zero_crossing_rate` and `librosa.load`) are library code not present in the
repository.  Following §4.2 and §6 of the specification they are modelled as
frame-wise computations over a decoded waveform with a fixed analysis window
(librosa's documented defaults: frame length 2048, hop 512, centred frames),
averaged to scalars. -/

/-- Analysis window length (librosa default `frame_length = n_fft = 2048`). -/
def frameLength : Nat := 2048

/-- Analysis hop (librosa default `hop_length = 512`). -/
def hopLength : Nat := 512

/-- A decoded mono waveform: sample count and sample values. -/
structure Waveform where
  len : Nat
  sample : Nat → ℝ

/-- Sample of the centre-padded signal (librosa pads `frameLength / 2` zeros
on each side before framing). -/
def paddedSample (y : Waveform) (i : Nat) : ℝ :=
  if frameLength / 2 ≤ i ∧ i < y.len + frameLength / 2 then y.sample (i - frameLength / 2) else 0

/-- Number of analysis frames of the centre-padded signal. -/
def numFrames (y : Waveform) : Nat :=
  (y.len + 2 * (frameLength / 2) - frameLength) / hopLength + 1

/-- Sample `j` of analysis frame `t`. -/
def frameSample (y : Waveform) (t j : Nat) : ℝ :=
  paddedSample y (t * hopLength + j)

/-- Root-mean-square amplitude of one analysis frame. -/
noncomputable def frameRms (y : Waveform) (t : Nat) : ℝ :=
  Real.sqrt ((∑ j ∈ Finset.range frameLength, (frameSample y t j) ^ 2) / frameLength)

/-- Modelled from the spec: `librosa.feature.rms(y=y).mean()` — frame-wise
RMS averaged to a scalar. -/
noncomputable def rms_energy (y : Waveform) : ℝ :=
  (∑ t ∈ Finset.range (numFrames y), frameRms y t) / numFrames y

open Classical in
/-- Fraction of sign changes inside one analysis frame (a sample counts as
negative exactly when its sign bit is set, i.e. it is `< 0`). -/
noncomputable def frameZcr (y : Waveform) (t : Nat) : ℝ :=
  (((Finset.Ico 1 frameLength).filter
      (fun j => (frameSample y t j < 0) ≠ (frameSample y t (j - 1) < 0))).card : ℝ) / frameLength

/-- Modelled from the spec: `librosa.feature.zero_crossing_rate(y).mean()` —
frame-wise fraction of sign changes averaged to a scalar. -/
noncomputable def zero_crossing_rate (y : Waveform) : ℝ :=
  (∑ t ∈ Finset.range (numFrames y), frameZcr y t) / numFrames y

/-- Magnitude spectrum of one analysis frame at bin `k` (discrete Fourier
transform of the frame). -/
noncomputable def magSpectrum (y : Waveform) (t k : Nat) : ℝ :=
  Complex.abs (∑ j ∈ Finset.range frameLength,
    (frameSample y t j : ℂ) * Complex.exp (-2 * Real.pi * Complex.I * k * j / frameLength))

/-- Frequency of spectrum bin `k` at sampling rate `sr`. -/
noncomputable def binFreq (sr k : Nat) : ℝ := k * sr / frameLength

/-- Energy-weighted average frequency of one frame's magnitude spectrum
(`0/0 = 0` in Lean's real division covers the all-zero frame, where librosa
likewise reports centroid 0). -/
noncomputable def frameCentroid (y : Waveform) (sr t : Nat) : ℝ :=
  (∑ k ∈ Finset.range (frameLength / 2 + 1), binFreq sr k * magSpectrum y t k) /
    (∑ k ∈ Finset.range (frameLength / 2 + 1), magSpectrum y t k)

/-- Modelled from the spec: `librosa.feature.spectral_centroid(y=y).mean()`. -/
noncomputable def spectral_centroid (y : Waveform) (sr : Nat) : ℝ :=
  (∑ t ∈ Finset.range (numFrames y), frameCentroid y sr t) / numFrames y

/-- Duration in seconds: `len(y) / sr`. -/
noncomputable def duration (y : Waveform) (sr : Nat) : ℝ := (y.len : ℝ) / sr

/-- Model of `ContentAnalyzer.extract_audio_features` on an already-decoded
waveform: the four scalar features as a record. -/
noncomputable def extract_audio_features (y : Waveform) (sr : Nat) : AcousticFeatures ℝ :=
  ⟨duration y sr, rms_energy y, spectral_centroid y sr, zero_crossing_rate y⟩

/-- A 3-second silent clip at 22050 Hz: 66150 zero samples. -/
def silentWave : Waveform := ⟨66150, fun _ => 0⟩

/-! ### Orchestration: `analyze_video`, `analyze_audio`, `analyze_content`

Each environment field of type `Except String _` stands for an effectful
Python step that either completes or raises; the `try/except` blocks of the
source become matches on those values.  Alongside each branch verdict the
model counts the inference calls (`chat.send_message`) issued, so that "the
service was not contacted" is expressible. -/

/-- What the video branch needs from its collaborators: the cv2 source, the
BGR→RGB conversion, and the inference call on a prompt plus frame list. -/
structure VideoEnv (α : Type) where
  source : VideoSource α
  rgb : α → α
  infer : String → List α → Except String String

/-- Model of `ContentAnalyzer.analyze_video`: extract frames, convert to
RGB, send the fixed prompt with the first 10 frames, and convert any raised
exception into `None`.  Returns the verdict and the number of inference
calls issued. -/
def analyze_video (env : VideoEnv α) : Option String × Nat :=
  match (extract_frames env.source 10).pairs with
  | .error _ => (none, 0)
  | .ok pairs =>
    let pil := pairs.map fun p => env.rgb p.2
    match env.infer videoPromptText (pil.take 10) with
    | .ok t => (some t, 1)
    | .error _ => (none, 1)

/-- What the audio branch needs: the decoded feature vector (or the decode
exception) and the inference call. -/
structure AudioEnv where
  features : Except String (AcousticFeatures ℚ)
  infer : String → Except String String

/-- Model of `ContentAnalyzer.analyze_audio`: extract features, send the
formatted prompt, and convert any raised exception into `None`. -/
def analyze_audio (env : AudioEnv) : Option String × Nat :=
  match env.features with
  | .error _ => (none, 0)
  | .ok f =>
    match env.infer (audioPrompt f) with
    | .ok t => (some t, 1)
    | .error _ => (none, 1)

/-- The merged report dictionary built by `analyze_content`. -/
structure Report where
  timestamp : String
  video_analysis : Option String
  audio_analysis : Option String
deriving DecidableEq

/-- What `analyze_content` hands back to its caller: the report, or the
`\x7b"error": str(e)\x7d` dictionary produced by its outer `except`. -/
inductive ContentResult where
  | report (r : Report)
  | failure (msg : String)
deriving DecidableEq

/-- One uploaded video: materialising it to a temporary file
(`NamedTemporaryFile` + `write(video_file.read())`), the branch environment,
and the `os.unlink` of the temporary file. -/
structure VideoUpload (α : Type) where
  materialize : Except String Unit
  env : VideoEnv α
  unlink : Except String Unit

/-- One uploaded audio clip, mirroring `VideoUpload`. -/
structure AudioUpload where
  materialize : Except String Unit
  env : AudioEnv
  unlink : Except String Unit

/-- Everything one invocation of `analyze_content` interacts with. -/
structure ContentEnv (α : Type) where
  videoFile : Option (VideoUpload α)
  audioFile : Option AudioUpload
  save : Except String Unit
  now : String

/-- The video paragraph of `analyze_content`: materialise the upload, run
`analyze_video` (which never raises), remove the temporary file.  Exceptions
of the materialisation and of the unlink escape this paragraph; the value is
the verdict together with the inference-call count. -/
def videoStep (c : ContentEnv α) : Except String (Option String) × Nat :=
  match c.videoFile with
  | none => (.ok none, 0)
  | some vf =>
    match vf.materialize with
    | .error e => (.error e, 0)
    | .ok _ =>
      let r := analyze_video vf.env
      match vf.unlink with
      | .error e => (.error e, r.2)
      | .ok _ => (.ok r.1, r.2)

/-- The audio paragraph of `analyze_content`, mirroring `videoStep`. -/
def audioStep (c : ContentEnv α) : Except String (Option String) × Nat :=
  match c.audioFile with
  | none => (.ok none, 0)
  | some af =>
    match af.materialize with
    | .error e => (.error e, 0)
    | .ok _ =>
      let r := analyze_audio af.env
      match af.unlink with
      | .error e => (.error e, r.2)
      | .ok _ => (.ok r.1, r.2)

/-- Model of `ContentAnalyzer.analyze_content`: build the report with the
current timestamp, run the video then the audio paragraph, persist, and let
the outer `except` turn any escaped exception into the error dictionary. -/
def analyze_content (c : ContentEnv α) : ContentResult × Nat :=
  match videoStep c with
  | (.error e, n) => (.failure e, n)
  | (.ok va, n) =>
    match audioStep c with
    | (.error e, m) => (.failure e, n + m)
    | (.ok aa, m) =>
      match c.save with
      | .error e => (.failure e, n + m)
      | .ok _ => (.report ⟨c.now, va, aa⟩, n + m)

/-! ### Persistence format: `json.dump(results, f, ensure_ascii=False, indent=2)`

`save_results` serialises the report as a UTF-8 JSON object with
`ensure_ascii=False`: `"`, `\` and control characters are escaped, every
other character — in particular non-ASCII text — is written as itself.  The
serialiser below renders exactly the `indent=2` layout of the source;
`parseReport` is the inverse direction of the persistence format, restricted
to the fixed three-field schema. -/

/-- Lower-case hex digit for `n < 16`. -/
def hexDig (n : Nat) : Char :=
  if n < 10 then Char.ofNat (48 + n) else Char.ofNat (87 + n)

/-- JSON escaping of one character as Python's `json.dump` with
`ensure_ascii=False` performs it. -/
def escChar (c : Char) : List Char :=
  if c = '"' then ['\\', '"']
  else if c = '\\' then ['\\', '\\']
  else if c = '\n' then ['\\', 'n']
  else if c = '\t' then ['\\', 't']
  else if c = '\r' then ['\\', 'r']
  else if c = '\x08' then ['\\', 'b']
  else if c = '\x0c' then ['\\', 'f']
  else if c.toNat < 32 then ['\\', 'u', '0', '0', hexDig (c.toNat / 16), hexDig (c.toNat % 16)]
  else [c]

/-- JSON escaping of a character list. -/
def escape (s : List Char) : List Char :=
  (s.map escChar).flatten

/-- A JSON string literal: quote, escaped content, quote. -/
def encStr (s : String) : List Char :=
  '"' :: (escape s.data ++ ['"'])

/-- A nullable string field value: `null` or a string literal. -/
def encField : Option String → List Char
  | none => ['n', 'u', 'l', 'l']
  | some s => encStr s

/-- The four literal pieces of the `indent=2` object layout. -/
def skel1 : List Char := "\x7b\n  \"timestamp\": ".data

/-- Separator before the `video_analysis` member. -/
def skel2 : List Char := ",\n  \"video_analysis\": ".data

/-- Separator before the `audio_analysis` member. -/
def skel3 : List Char := ",\n  \"audio_analysis\": ".data

/-- Closing newline and brace. -/
def skel4 : List Char := "\n\x7d".data

/-- The file content `save_results` writes for a report. -/
def serializeReport (r : Report) : String :=
  String.mk (skel1 ++ encStr r.timestamp ++ skel2 ++ encField r.video_analysis
    ++ skel3 ++ encField r.audio_analysis ++ skel4)

/-- Value of a hex digit character, if it is one. -/
def hexVal (c : Char) : Option Nat :=
  if '0' ≤ c ∧ c ≤ '9' then some (c.toNat - 48)
  else if 'a' ≤ c ∧ c ≤ 'f' then some (c.toNat - 87)
  else if 'A' ≤ c ∧ c ≤ 'F' then some (c.toNat - 55)
  else none

/-- Reading of a JSON string body (the opening quote already consumed):
returns the unescaped content and the input following the closing quote. -/
def readStr : List Char → Option (List Char × List Char)
  | [] => none
  | c :: rest =>
    if c = '"' then some ([], rest)
    else if c = '\\' then
      match rest with
      | [] => none
      | e :: rest2 =>
        if e = '"' then (readStr rest2).map fun p => ('"' :: p.1, p.2)
        else if e = '\\' then (readStr rest2).map fun p => ('\\' :: p.1, p.2)
        else if e = 'n' then (readStr rest2).map fun p => ('\n' :: p.1, p.2)
        else if e = 't' then (readStr rest2).map fun p => ('\t' :: p.1, p.2)
        else if e = 'r' then (readStr rest2).map fun p => ('\r' :: p.1, p.2)
        else if e = 'b' then (readStr rest2).map fun p => ('\x08' :: p.1, p.2)
        else if e = 'f' then (readStr rest2).map fun p => ('\x0c' :: p.1, p.2)
        else if e = 'u' then
          match rest2 with
          | h1 :: h2 :: h3 :: h4 :: rest3 =>
            match hexVal h1, hexVal h2, hexVal h3, hexVal h4 with
            | some a, some b, some c2, some d =>
              (readStr rest3).map fun p =>
                (Char.ofNat (4096 * a + 256 * b + 16 * c2 + d) :: p.1, p.2)
            | _, _, _, _ => none
          | _ => none
        else none
    else (readStr rest).map fun p => (c :: p.1, p.2)

/-- Consuming of an expected literal prefix. -/
def eat : List Char → List Char → Option (List Char)
  | [], l => some l
  | _ :: _, [] => none
  | p :: ps, c :: cs => if c = p then eat ps cs else none

/-- The literal `null`. -/
def nullLit : List Char := ['n', 'u', 'l', 'l']

/-- Reading of a nullable string field value. -/
def readField (l : List Char) : Option (Option String × List Char) :=
  match eat nullLit l with
  | some rest => some (none, rest)
  | none =>
    match l with
    | [] => none
    | c :: rest =>
      if c = '"' then (readStr rest).map fun p => (some (String.mk p.1), p.2)
      else none

/-- Reading of a (non-nullable) JSON string literal. -/
def readQuoted (l : List Char) : Option (List Char × List Char) :=
  match l with
  | [] => none
  | c :: rest => if c = '"' then readStr rest else none

/-- Deserialisation of the persisted format back into a report. -/
def parseReport (s : String) : Option Report :=
  (eat skel1 s.data).bind fun l1 =>
  (readQuoted l1).bind fun p1 =>
  (eat skel2 p1.2).bind fun l3 =>
  (readField l3).bind fun p2 =>
  (eat skel3 p2.2).bind fun l5 =>
  (readField l5).bind fun p3 =>
  (eat skel4 p3.2).bind fun l7 =>
  if l7 = [] then some ⟨String.mk p1.1, p2.1, p3.1⟩ else none

/-! ### Round-trip of the persistence format -/

theorem eat_append (p l : List Char) : eat p (p ++ l) = some l := by
  induction p with
  | nil => rfl
  | cons c cs ih => simp [eat, ih]

theorem hexVal_hexDig (n : Nat) (h : n < 16) : hexVal (hexDig n) = some n := by
  interval_cases n <;> decide

theorem readStr_unicode (c : Char) (h : c.toNat < 32) (l : List Char) :
    readStr ('\\' :: 'u' :: '0' :: '0' :: hexDig (c.toNat / 16) :: hexDig (c.toNat % 16) :: l)
      = (readStr l).map fun p => (c :: p.1, p.2) := by
  have h1 : c.toNat / 16 < 16 := by omega
  have h2 : c.toNat % 16 < 16 := Nat.mod_lt _ (by norm_num)
  have hx : hexVal '0' = some 0 := by decide
  rw [readStr.eq_def]
  simp +decide only [hx, hexVal_hexDig _ h1, hexVal_hexDig _ h2]
  have hc : Char.ofNat (16 * (c.toNat / 16) + c.toNat % 16) = c := by
    rw [show 16 * (c.toNat / 16) + c.toNat % 16 = c.toNat from by omega, Char.ofNat_toNat]
  simp [hc]

theorem readStr_escape (s rest : List Char) :
    readStr (escape s ++ '"' :: rest) = some (s, rest) := by
  induction s with
  | nil =>
    show readStr ('"' :: rest) = some ([], rest)
    rw [readStr.eq_def]
    simp
  | cons c cs ih =>
    rw [show escape (c :: cs) = escChar c ++ escape cs from by simp [escape],
      List.append_assoc]
    unfold escChar
    split_ifs with h1 h2 h3 h4 h5 h6 h7 h8
    · subst h1; rw [readStr.eq_def]; simp +decide [ih]
    · subst h2; rw [readStr.eq_def]; simp +decide [ih]
    · subst h3; rw [readStr.eq_def]; simp +decide [ih]
    · subst h4; rw [readStr.eq_def]; simp +decide [ih]
    · subst h5; rw [readStr.eq_def]; simp +decide [ih]
    · subst h6; rw [readStr.eq_def]; simp +decide [ih]
    · subst h7; rw [readStr.eq_def]; simp +decide [ih]
    · rw [show (['\\', 'u', '0', '0', hexDig (c.toNat / 16), hexDig (c.toNat % 16)] : List Char)
            ++ (escape cs ++ '"' :: rest)
          = '\\' :: 'u' :: '0' :: '0' :: hexDig (c.toNat / 16) :: hexDig (c.toNat % 16)
            :: (escape cs ++ '"' :: rest) from rfl]
      rw [readStr_unicode c h8, ih]
      rfl
    · rw [List.singleton_append, readStr.eq_def]
      simp only [if_neg h1, if_neg h2, ih]
      rfl

theorem data_mk (L : List Char) : (String.mk L).data = L := rfl

theorem mk_data (s : String) : String.mk s.data = s := by
  cases s
  rfl

theorem readQuoted_encStr (s : String) (l : List Char) :
    readQuoted (encStr s ++ l) = some (s.data, l) := by
  show readQuoted (('"' :: (escape s.data ++ ['"'])) ++ l) = some (s.data, l)
  rw [List.cons_append, List.append_assoc, List.singleton_append]
  simp only [readQuoted, if_pos rfl]
  exact readStr_escape s.data l

theorem readField_encField (v : Option String) (l : List Char) :
    readField (encField v ++ l) = some (v, l) := by
  cases v with
  | none =>
    show readField (nullLit ++ l) = some (none, l)
    unfold readField
    rw [eat_append]
  | some s =>
    show readField (('"' :: (escape s.data ++ ['"'])) ++ l) = some (some s, l)
    unfold readField
    rw [List.cons_append]
    have he : eat nullLit ('"' :: ((escape s.data ++ ['"']) ++ l)) = none := by
      simp +decide [nullLit, eat]
    rw [he]
    rw [List.append_assoc, List.singleton_append]
    simp [readStr_escape s.data l, mk_data]

theorem eat_self (p : List Char) : eat p p = some [] := by
  have h := eat_append p []
  rwa [List.append_nil] at h

/-! ### Properties of the sampling loop -/

theorem extractLoop_ok_structure (src : VideoSource α) (C : Nat) :
    ∀ (idxs : List Nat) (acc res : List (Nat × α)),
      extractLoop src C idxs acc = .ok res →
      ∃ ext, res = acc ++ ext ∧ (ext.map Prod.fst).Sublist idxs ∧
        ∀ p ∈ ext, src.read p.1 = .ok p.2 := by
  intro idxs
  induction idxs with
  | nil =>
    intro acc res h
    simp only [extractLoop, Except.ok.injEq] at h
    subst h
    exact ⟨[], by simp, List.nil_sublist _, by simp⟩
  | cons i rest ih =>
    intro acc res h
    simp only [extractLoop] at h
    split at h
    next heq => simp at h
    next f heq =>
      by_cases hc : C ≤ (acc ++ [(i, f)]).length
      · rw [if_pos hc] at h
        simp only [Except.ok.injEq] at h
        subst h
        refine ⟨[(i, f)], rfl, ?_, ?_⟩
        · exact (List.nil_sublist rest).cons₂ i
        · intro p hp
          rcases List.mem_singleton.mp hp with rfl
          exact heq
      · rw [if_neg hc] at h
        obtain ⟨ext, hres, hsub, hread⟩ := ih _ _ h
        refine ⟨(i, f) :: ext, ?_, ?_, ?_⟩
        · rw [hres, List.append_assoc, List.singleton_append]
        · simpa using hsub.cons₂ i
        · intro p hp
          rcases List.mem_cons.mp hp with rfl | hp
          · exact heq
          · exact hread p hp
    next heq =>
      by_cases hc : C ≤ acc.length
      · rw [if_pos hc] at h
        simp only [Except.ok.injEq] at h
        subst h
        exact ⟨[], by simp, List.nil_sublist _, by simp⟩
      · rw [if_neg hc] at h
        obtain ⟨ext, hres, hsub, hread⟩ := ih _ _ h
        exact ⟨ext, hres, hsub.cons i, hread⟩

theorem extractLoop_ok_length (src : VideoSource α) (C : Nat) :
    ∀ (idxs : List Nat) (acc res : List (Nat × α)), acc.length < C →
      extractLoop src C idxs acc = .ok res → res.length ≤ C := by
  intro idxs
  induction idxs with
  | nil =>
    intro acc res hlt h
    simp only [extractLoop, Except.ok.injEq] at h
    subst h
    exact le_of_lt hlt
  | cons i rest ih =>
    intro acc res hlt h
    simp only [extractLoop] at h
    split at h
    next heq => simp at h
    next f heq =>
      by_cases hc : C ≤ (acc ++ [(i, f)]).length
      · rw [if_pos hc] at h
        simp only [Except.ok.injEq] at h
        subst h
        simp only [List.length_append, List.length_singleton]
        omega
      · rw [if_neg hc] at h
        have hlen : (acc ++ [(i, f)]).length < C := by omega
        exact ih _ _ hlen h
    next heq =>
      by_cases hc : C ≤ acc.length
      · rw [if_pos hc] at h
        simp only [Except.ok.injEq] at h
        subst h
        exact le_of_lt hlt
      · rw [if_neg hc] at h
        exact ih _ _ hlt h

theorem extractLoop_no_exn (src : VideoSource α) (C : Nat) :
    ∀ (idxs : List Nat) (acc : List (Nat × α)), (∀ i ∈ idxs, src.read i ≠ .exn) →
      ∃ res, extractLoop src C idxs acc = .ok res := by
  intro idxs
  induction idxs with
  | nil => exact fun acc _ => ⟨acc, rfl⟩
  | cons i rest ih =>
    intro acc hne
    cases hr : src.read i with
    | exn => exact absurd hr (hne i (List.mem_cons_self i rest))
    | ok f =>
      by_cases hc : C ≤ (acc ++ [(i, f)]).length
      · refine ⟨acc ++ [(i, f)], ?_⟩
        simp only [extractLoop, hr]
        rw [if_pos hc]
      · obtain ⟨res, hres⟩ := ih (acc ++ [(i, f)]) (fun j hj => hne j (List.mem_cons_of_mem i hj))
        refine ⟨res, ?_⟩
        simp only [extractLoop, hr]
        rw [if_neg hc, hres]
    | fail =>
      by_cases hc : C ≤ acc.length
      · refine ⟨acc, ?_⟩
        simp only [extractLoop, hr]
        rw [if_pos hc]
      · obtain ⟨res, hres⟩ := ih acc (fun j hj => hne j (List.mem_cons_of_mem i hj))
        refine ⟨res, ?_⟩
        simp only [extractLoop, hr]
        rw [if_neg hc, hres]

theorem pyRange_pairwise (stop step : Nat) (h : 0 < step) :
    (pyRange stop step).Pairwise (· < ·) :=
  List.pairwise_lt_range' 0 _ step h

theorem mem_pyRange_mul (stop step m : Nat) (hstep : 0 < step) (hm : m ∈ pyRange stop step) :
    ∃ k, m = step * k ∧ m < stop := by
  rw [pyRange, List.mem_range'] at hm
  obtain ⟨k, hk, hmk⟩ := hm
  refine ⟨k, by omega, ?_⟩
  have h1 : step * (k + 1) ≤ step * ((stop + step - 1) / step) :=
    Nat.mul_le_mul_left _ hk
  have h2 : step * ((stop + step - 1) / step) ≤ stop + step - 1 := by
    rw [Nat.mul_comm]
    exact Nat.div_mul_le_self _ _
  have h3 : step * (k + 1) = step * k + step := by ring
  omega

/-- C7: serialising an `AnalysisReport` through the persistence format and
deserialising it back yields field-for-field equality — for every report,
hence in particular for reports whose verdict strings carry non-ASCII
(e.g. Bengali) text, which the `ensure_ascii=False` encoding writes through
unescaped and the parser returns byte-for-byte. -/
theorem C7_report_roundtrip (r : Report) :
    parseReport (serializeReport r) = some r := by
  obtain ⟨ts, va, aa⟩ := r
  unfold serializeReport parseReport
  rw [data_mk]
  simp only [List.append_assoc, eat_append, Option.some_bind, readQuoted_encStr,
    readField_encField, eat_self, mk_data]
  simp

/-- C1: for every video source with `T` total decodable frames and cap `C`,
the frame sampler returns at most `C` frames, collected at strictly
increasing source indices in temporal order, each a multiple of
`interval = max(1, T // C)` below `T`, each one a successfully decoded
frame (failed reads are silently skipped); and on `T = 100`, `C = 10` the
collected indices are exactly `0, 10, ..., 90`. -/
theorem C1_frame_sampler :
    (∀ (β : Type) (src : VideoSource β) (C : Nat), 0 < C →
      (∀ i, src.read i ≠ ReadResult.exn) →
      ∃ res : List (Nat × β),
        (extract_frames src C).pairs = .ok res ∧
        (extract_frames src C).released = true ∧
        res.length ≤ C ∧
        (res.map Prod.fst).Pairwise (· < ·) ∧
        (∀ p ∈ res, src.read p.1 = ReadResult.ok p.2) ∧
        (∀ p ∈ res, ∃ k, p.1 = max 1 (src.totalFrames / C) * k ∧ p.1 < src.totalFrames)) ∧
    (extract_frames (⟨100, fun i => ReadResult.ok i⟩ : VideoSource Nat) 10).pairs
      = .ok ([0, 10, 20, 30, 40, 50, 60, 70, 80, 90].map fun i => (i, i)) := by
  constructor
  · intro β src C hC hne
    obtain ⟨res, hloop⟩ :=
      extractLoop_no_exn src C (pyRange src.totalFrames (max 1 (src.totalFrames / C))) []
        (fun i _ => hne i)
    have hstep : 0 < max 1 (src.totalFrames / C) := lt_of_lt_of_le Nat.one_pos (le_max_left _ _)
    refine ⟨res, ?_, ?_, ?_, ?_, ?_, ?_⟩
    · simp only [extract_frames, hloop]
    · simp only [extract_frames, hloop]
    · exact extractLoop_ok_length src C _ [] res (by simpa using hC) hloop
    · obtain ⟨ext, hres, hsub, _⟩ := extractLoop_ok_structure src C _ _ _ hloop
      rw [hres, List.nil_append]
      exact (pyRange_pairwise _ _ hstep).sublist hsub
    · intro p hp
      obtain ⟨ext, hres, _, hread⟩ := extractLoop_ok_structure src C _ _ _ hloop
      rw [hres, List.nil_append] at hp
      exact hread p hp
    · intro p hp
      obtain ⟨ext, hres, hsub, _⟩ := extractLoop_ok_structure src C _ _ _ hloop
      rw [hres, List.nil_append] at hp
      have hmem : p.1 ∈ pyRange src.totalFrames (max 1 (src.totalFrames / C)) :=
        hsub.subset (List.mem_map_of_mem Prod.fst hp)
      exact mem_pyRange_mul _ _ _ hstep hmem
  · rfl

/-- Witness for C1 at a concrete source: 100 frames, every index decodable,
cap 10. -/
theorem C1_frame_sampler_witness :
    0 < 10 ∧
    (∀ i, (⟨100, fun i => ReadResult.ok i⟩ : VideoSource Nat).read i ≠ ReadResult.exn) ∧
    ∃ res : List (Nat × Nat),
      (extract_frames (⟨100, fun i => ReadResult.ok i⟩ : VideoSource Nat) 10).pairs = .ok res ∧
      (extract_frames (⟨100, fun i => ReadResult.ok i⟩ : VideoSource Nat) 10).released = true ∧
      res.length ≤ 10 ∧
      (res.map Prod.fst).Pairwise (· < ·) ∧
      (∀ p ∈ res,
        (⟨100, fun i => ReadResult.ok i⟩ : VideoSource Nat).read p.1 = ReadResult.ok p.2) ∧
      (∀ p ∈ res, ∃ k,
        p.1 = max 1 ((⟨100, fun i => ReadResult.ok i⟩ : VideoSource Nat).totalFrames / 10) * k ∧
        p.1 < (⟨100, fun i => ReadResult.ok i⟩ : VideoSource Nat).totalFrames) :=
  ⟨Nat.succ_pos 9, fun _ h => ReadResult.noConfusion h,
    C1_frame_sampler.1 Nat ⟨100, fun i => ReadResult.ok i⟩ 10 (by decide)
      (fun _ h => ReadResult.noConfusion h)⟩

/-- C9 at the failing input: a source whose first seek-and-read raises makes
`extract_frames` propagate the exception without reaching `cap.release()`
(there is no `try/finally` around the sampling loop), so the decode handle
is not released on this exit path. -/
theorem C9_handle_leak_at_failing_input :
    (extract_frames (⟨100, fun _ => ReadResult.exn⟩ : VideoSource Nat) 10).released = false ∧
    (extract_frames (⟨100, fun _ => ReadResult.exn⟩ : VideoSource Nat) 10).pairs = .error () :=
  ⟨rfl, rfl⟩

theorem extractLoop_all_fail (src : VideoSource α) (C : Nat) :
    ∀ (idxs : List Nat) (acc : List (Nat × α)), (∀ i ∈ idxs, src.read i = .fail) →
      extractLoop src C idxs acc = .ok acc := by
  intro idxs
  induction idxs with
  | nil => exact fun acc _ => rfl
  | cons i rest ih =>
    intro acc hf
    have hr : src.read i = .fail := hf i (List.mem_cons_self i rest)
    by_cases hc : C ≤ acc.length
    · simp only [extractLoop, hr]
      rw [if_pos hc]
    · simp only [extractLoop, hr]
      rw [if_neg hc, ih acc (fun j hj => hf j (List.mem_cons_of_mem i hj))]

/-- C10: for a source that reports zero total frames, or from which every
read fails, the sampler returns the empty sequence and `analyze_video`
still issues one inference call carrying the fixed prompt and no frame at
all, so the branch verdict is the service's text. -/
theorem C10_empty_sampling_still_infers {β : Type} (env : VideoEnv β) (t : String)
    (h : env.source.totalFrames = 0 ∨ ∀ i, env.source.read i = ReadResult.fail)
    (hinf : env.infer videoPromptText [] = .ok t) :
    (extract_frames env.source 10).pairs = .ok [] ∧ analyze_video env = (some t, 1) := by
  have hpairs : (extract_frames env.source 10).pairs = .ok [] := by
    rcases h with h0 | hfail
    · simp [extract_frames, h0, pyRange, extractLoop]
    · simp only [extract_frames]
      rw [extractLoop_all_fail env.source 10 _ [] (fun i _ => hfail i)]
  refine ⟨hpairs, ?_⟩
  simp [analyze_video, hpairs, hinf]

/-- Witness for C10: a zero-frame source whose inference call returns a
fixed verdict. -/
theorem C10_empty_sampling_witness :
    ((⟨⟨0, fun _ => ReadResult.fail⟩, id, fun _ _ => .ok "verdict"⟩ :
        VideoEnv Nat).source.totalFrames = 0 ∨
      ∀ i, (⟨⟨0, fun _ => ReadResult.fail⟩, id, fun _ _ => .ok "verdict"⟩ :
        VideoEnv Nat).source.read i = ReadResult.fail) ∧
    (⟨⟨0, fun _ => ReadResult.fail⟩, id, fun _ _ => .ok "verdict"⟩ :
        VideoEnv Nat).infer videoPromptText [] = .ok "verdict" ∧
    (extract_frames (⟨⟨0, fun _ => ReadResult.fail⟩, id, fun _ _ => .ok "verdict"⟩ :
        VideoEnv Nat).source 10).pairs = .ok [] ∧
    analyze_video (⟨⟨0, fun _ => ReadResult.fail⟩, id, fun _ _ => .ok "verdict"⟩ :
        VideoEnv Nat) = (some "verdict", 1) :=
  ⟨Or.inl rfl, rfl,
    C10_empty_sampling_still_infers
      (⟨⟨0, fun _ => ReadResult.fail⟩, id, fun _ _ => .ok "verdict"⟩ : VideoEnv Nat)
      "verdict" (Or.inl rfl) rfl⟩

/-- C5: when both uploads are absent, the orchestrator returns the report
with the invocation timestamp and both analysis fields null, and the
inference service is never contacted (zero `send_message` calls). -/
theorem C5_both_absent {β : Type} (c : ContentEnv β)
    (hv : c.videoFile = none) (ha : c.audioFile = none) (hs : c.save = .ok ()) :
    analyze_content c = (.report ⟨c.now, none, none⟩, 0) := by
  simp [analyze_content, videoStep, audioStep, hv, ha, hs]

/-- Witness for C5: a concrete invocation with no uploads. -/
theorem C5_both_absent_witness :
    (⟨none, none, .ok (), "2024-01-01T00:00:00"⟩ : ContentEnv Nat).videoFile = none ∧
    (⟨none, none, .ok (), "2024-01-01T00:00:00"⟩ : ContentEnv Nat).audioFile = none ∧
    (⟨none, none, .ok (), "2024-01-01T00:00:00"⟩ : ContentEnv Nat).save = .ok () ∧
    analyze_content (⟨none, none, .ok (), "2024-01-01T00:00:00"⟩ : ContentEnv Nat)
      = (.report ⟨"2024-01-01T00:00:00", none, none⟩, 0) :=
  ⟨rfl, rfl, rfl,
    C5_both_absent (⟨none, none, .ok (), "2024-01-01T00:00:00"⟩ : ContentEnv Nat) rfl rfl rfl⟩

/-- C3: the orchestrator never raises past its own boundary (every
invocation yields either a report or an error-tagged value), and when both
branch paragraphs complete but persistence fails, the whole invocation
returns the error-tagged result carrying that single error string instead
of a partial report. -/
theorem C3_persistence_failure_error_tagged {β : Type} (c : ContentEnv β)
    (va aa : Option String) (n m : Nat) (e : String)
    (hv : videoStep c = (.ok va, n)) (ha : audioStep c = (.ok aa, m))
    (hs : c.save = .error e) :
    analyze_content c = (.failure e, n + m) ∧
    ∀ c' : ContentEnv β,
      (∃ r k, analyze_content c' = (.report r, k)) ∨
      (∃ msg k, analyze_content c' = (.failure msg, k)) := by
  constructor
  · simp [analyze_content, hv, ha, hs]
  · intro c'
    rcases h : analyze_content c' with ⟨r | msg, k⟩
    · exact Or.inl ⟨r, k, rfl⟩
    · exact Or.inr ⟨msg, k, rfl⟩

/-- Witness for C3: no uploads, persistence fails with "disk full". -/
theorem C3_persistence_failure_witness :
    videoStep (⟨none, none, .error "disk full", "now"⟩ : ContentEnv Nat) = (.ok none, 0) ∧
    audioStep (⟨none, none, .error "disk full", "now"⟩ : ContentEnv Nat) = (.ok none, 0) ∧
    (⟨none, none, .error "disk full", "now"⟩ : ContentEnv Nat).save = .error "disk full" ∧
    analyze_content (⟨none, none, .error "disk full", "now"⟩ : ContentEnv Nat)
      = (.failure "disk full", 0 + 0) :=
  ⟨rfl, rfl, rfl,
    (C3_persistence_failure_error_tagged (⟨none, none, .error "disk full", "now"⟩ : ContentEnv Nat)
      none none 0 0 "disk full" rfl rfl rfl).1⟩

/-- The invocation refuting C2: both uploads supplied, the audio branch
would succeed, but reading the uploaded video bytes raises while the
orchestrator materialises them to the temporary file. -/
def c2CexEnv : ContentEnv Nat :=
  ⟨some ⟨.error "corrupt upload", ⟨⟨0, fun _ => ReadResult.ok 0⟩, id, fun _ _ => .ok "v"⟩, .ok ()⟩,
    some ⟨.ok (), ⟨.ok ⟨3, 0, 0, 0⟩, fun _ => .ok "audio verdict"⟩, .ok ()⟩,
    .ok (), "2024-01-01T00:00:00"⟩

/-- Counterexample to C2: at `c2CexEnv` the exception raised while
materialising the video bytes is not caught at the branch boundary; the
whole invocation returns the error dictionary, no report is produced, and
the audio branch never runs (zero inference calls). -/
theorem C2_counterexample :
    analyze_content c2CexEnv = (.failure "corrupt upload", 0) ∧
    ∀ r : Report, (analyze_content c2CexEnv).1 ≠ .report r :=
  ⟨rfl, fun _ h => ContentResult.noConfusion h⟩

/-- C2 amended: an exception raised inside `analyze_video` (frame sampling,
prompt construction or the inference call) is caught there and surfaces
only as `video_analysis = null` while the audio branch still runs to
completion; but an exception while materialising the uploaded bytes (or
removing the temporary file) escapes to the orchestrator boundary instead.
The theorem shows the caught side: whenever both uploads are present, the
video temporary-file steps succeed, and the audio branch succeeds with
verdict `t`, the invocation returns a report whose video field is whatever
`analyze_video` produced — in particular `null` whenever frame extraction
raised — and whose audio field is `some t`. -/
theorem C2_amended_video_failure_isolated {β : Type} (c : ContentEnv β)
    (vf : VideoUpload β) (af : AudioUpload) (t : String) (f : AcousticFeatures ℚ)
    (hv : c.videoFile = some vf) (hm : vf.materialize = .ok ()) (hu : vf.unlink = .ok ())
    (ha : c.audioFile = some af) (ham : af.materialize = .ok ()) (hau : af.unlink = .ok ())
    (hft : af.env.features = .ok f) (hinf : af.env.infer (audioPrompt f) = .ok t)
    (hs : c.save = .ok ()) :
    analyze_content c
      = (.report ⟨c.now, (analyze_video vf.env).1, some t⟩, (analyze_video vf.env).2 + 1) ∧
    ∀ env : VideoEnv β,
      (extract_frames env.source 10).pairs = .error () → (analyze_video env).1 = none := by
  constructor
  · simp [analyze_content, videoStep, audioStep, analyze_audio, hv, hm, hu, ha, ham, hau,
      hft, hinf, hs]
  · intro env he
    simp [analyze_video, he]

/-- Witness for the amended C2: the video source raises on every read, the
audio branch succeeds; the invocation returns the audio verdict and a null
video field. -/
theorem C2_amended_witness :
    analyze_content
        (⟨some ⟨.ok (), ⟨⟨5, fun _ => ReadResult.exn⟩, id, fun _ _ => .error "never"⟩, .ok ()⟩,
          some ⟨.ok (), ⟨.ok ⟨3, 0, 0, 0⟩, fun _ => .ok "audio ok"⟩, .ok ()⟩,
          .ok (), "now"⟩ : ContentEnv Nat)
      = (.report ⟨"now", none, some "audio ok"⟩, 0 + 1) :=
  (C2_amended_video_failure_isolated
    (⟨some ⟨.ok (), ⟨⟨5, fun _ => ReadResult.exn⟩, id, fun _ _ => .error "never"⟩, .ok ()⟩,
      some ⟨.ok (), ⟨.ok ⟨3, 0, 0, 0⟩, fun _ => .ok "audio ok"⟩, .ok ()⟩,
      .ok (), "now"⟩ : ContentEnv Nat)
    ⟨.ok (), ⟨⟨5, fun _ => ReadResult.exn⟩, id, fun _ _ => .error "never"⟩, .ok ()⟩
    ⟨.ok (), ⟨.ok ⟨3, 0, 0, 0⟩, fun _ => .ok "audio ok"⟩, .ok ()⟩
    "audio ok" ⟨3, 0, 0, 0⟩
    rfl rfl rfl rfl rfl rfl rfl rfl rfl).1

/-! ### Silent-waveform facts and feature ranges -/

theorem paddedSample_silent (y : Waveform) (hy : ∀ i, y.sample i = 0) (i : Nat) :
    paddedSample y i = 0 := by
  unfold paddedSample
  split_ifs <;> simp [hy]

theorem frameSample_silent (y : Waveform) (hy : ∀ i, y.sample i = 0) (t j : Nat) :
    frameSample y t j = 0 := by
  unfold frameSample
  exact paddedSample_silent y hy _

theorem frameRms_silent (y : Waveform) (hy : ∀ i, y.sample i = 0) (t : Nat) :
    frameRms y t = 0 := by
  unfold frameRms
  rw [Finset.sum_eq_zero (fun j _ => by rw [frameSample_silent y hy]; ring)]
  simp

theorem rms_energy_silent (y : Waveform) (hy : ∀ i, y.sample i = 0) :
    rms_energy y = 0 := by
  unfold rms_energy
  rw [Finset.sum_eq_zero (fun t _ => frameRms_silent y hy t)]
  simp

theorem frameZcr_silent (y : Waveform) (hy : ∀ i, y.sample i = 0) (t : Nat) :
    frameZcr y t = 0 := by
  unfold frameZcr
  rw [Finset.filter_false_of_mem (fun j _ => by simp [frameSample_silent y hy])]
  simp

theorem zero_crossing_rate_silent (y : Waveform) (hy : ∀ i, y.sample i = 0) :
    zero_crossing_rate y = 0 := by
  unfold zero_crossing_rate
  rw [Finset.sum_eq_zero (fun t _ => frameZcr_silent y hy t)]
  simp

theorem magSpectrum_silent (y : Waveform) (hy : ∀ i, y.sample i = 0) (t k : Nat) :
    magSpectrum y t k = 0 := by
  unfold magSpectrum
  rw [Finset.sum_eq_zero (fun j _ => by rw [frameSample_silent y hy]; simp)]
  simp

theorem spectral_centroid_silent (y : Waveform) (hy : ∀ i, y.sample i = 0) (sr : Nat) :
    spectral_centroid y sr = 0 := by
  unfold spectral_centroid
  rw [Finset.sum_eq_zero]
  · simp
  · intro t _
    unfold frameCentroid
    rw [Finset.sum_eq_zero (fun k _ => by rw [magSpectrum_silent y hy]; ring)]
    simp

theorem extract_silent_features :
    extract_audio_features silentWave 22050 = ofRatFeatures ⟨3, 0, 0, 0⟩ := by
  have hy : ∀ i, silentWave.sample i = 0 := fun _ => rfl
  unfold extract_audio_features ofRatFeatures
  simp only [rms_energy_silent silentWave hy, zero_crossing_rate_silent silentWave hy,
    spectral_centroid_silent silentWave hy]
  unfold duration silentWave
  norm_num

theorem strData_append (a b : String) : (a ++ b).data = a.data ++ b.data := by
  cases a
  cases b
  rfl

theorem containsSub_append_mid (pat u v l : List Char) (h : l = u ++ (pat ++ v)) :
    containsSub pat l = true := by
  subst h
  have hm := containsSub_middle pat v u
  rwa [List.append_assoc] at hm

/-- The feature vector of the 3-second silent clip, in exact arithmetic. -/
def silentFeat : AcousticFeatures ℚ := ⟨3, 0, 0, 0⟩

set_option maxRecDepth 8000 in
/-- Counterexample to C4: at the silent clip's feature vector the prompt the
source renders (energy at 4 decimal places) differs from the prompt the
specification describes (energy at 2 decimal places). -/
theorem C4_counterexample :
    audioPrompt silentFeat ≠ audioPromptClaimed silentFeat := by
  decide

/-- C4 amended: the prompt interpolates duration and spectral_centroid to 2
decimal places and rms_energy and zero_crossing_rate to 4 decimal places;
the silent 3-second clip's features evaluate to `(3, 0, 0, 0)` and its
rendered prompt contains `Duration: 3.00 seconds`, `Energy Level: 0.0000`
and therefore the digit string `0.00` next to the duration fields. -/
theorem C4_amended_formatting :
    extract_audio_features silentWave 22050 = ofRatFeatures silentFeat ∧
    containsSub "- Duration: 3.00 seconds".data (audioPrompt silentFeat).data = true ∧
    containsSub "- Energy Level: 0.0000".data (audioPrompt silentFeat).data = true ∧
    containsSub "0.00".data (audioPrompt silentFeat).data = true ∧
    ∀ f : AcousticFeatures ℚ,
      containsSub (formatFixed 2 f.duration).data (audioPrompt f).data = true ∧
      containsSub (formatFixed 4 f.rms_energy).data (audioPrompt f).data = true ∧
      containsSub (formatFixed 2 f.spectral_centroid).data (audioPrompt f).data = true ∧
      containsSub (formatFixed 4 f.zero_crossing_rate).data (audioPrompt f).data = true := by
  refine ⟨extract_silent_features, by decide, by decide, by decide, ?_⟩
  intro f
  refine ⟨?_, ?_, ?_, ?_⟩
  · exact containsSub_append_mid _ apIntro.data
      ((apAfterDur ++ formatFixed 4 f.rms_energy ++ apAfterEnergy
        ++ formatFixed 2 f.spectral_centroid ++ apAfterCentroid
        ++ formatFixed 4 f.zero_crossing_rate ++ apOutro).data) _
      (by simp [audioPrompt, strData_append])
  · exact containsSub_append_mid _
      ((apIntro ++ formatFixed 2 f.duration ++ apAfterDur).data)
      ((apAfterEnergy ++ formatFixed 2 f.spectral_centroid ++ apAfterCentroid
        ++ formatFixed 4 f.zero_crossing_rate ++ apOutro).data) _
      (by simp [audioPrompt, strData_append])
  · exact containsSub_append_mid _
      ((apIntro ++ formatFixed 2 f.duration ++ apAfterDur ++ formatFixed 4 f.rms_energy
        ++ apAfterEnergy).data)
      ((apAfterCentroid ++ formatFixed 4 f.zero_crossing_rate ++ apOutro).data) _
      (by simp [audioPrompt, strData_append])
  · exact containsSub_append_mid _
      ((apIntro ++ formatFixed 2 f.duration ++ apAfterDur ++ formatFixed 4 f.rms_energy
        ++ apAfterEnergy ++ formatFixed 2 f.spectral_centroid ++ apAfterCentroid).data)
      (apOutro.data) _
      (by simp [audioPrompt, strData_append])

theorem numFrames_pos (y : Waveform) : 0 < numFrames y := Nat.succ_pos _

theorem frameZcr_nonneg (y : Waveform) (t : Nat) : 0 ≤ frameZcr y t := by
  unfold frameZcr
  positivity

theorem frameZcr_le_one (y : Waveform) (t : Nat) : frameZcr y t ≤ 1 := by
  unfold frameZcr
  rw [div_le_one (by norm_num [frameLength])]
  have hcard := Finset.card_filter_le (Finset.Ico 1 frameLength)
    (fun j => (frameSample y t j < 0) ≠ (frameSample y t (j - 1) < 0))
  have hle : (Finset.Ico 1 frameLength).card ≤ frameLength := by
    rw [Nat.card_Ico]
    exact Nat.sub_le _ _
  exact_mod_cast le_trans hcard hle

/-- C6: on every decoded waveform the extractor's outputs satisfy the
advertised ranges — duration is nonnegative and vanishes exactly on the
zero-length waveform, RMS energy is nonnegative, the zero-crossing rate lies
in `[0, 1]` — and on an all-zero waveform both RMS energy and zero-crossing
rate are exactly `0`. -/
theorem C6_feature_ranges (y : Waveform) (sr : Nat) (hsr : 0 < sr) :
    0 ≤ (extract_audio_features y sr).duration ∧
    ((extract_audio_features y sr).duration = 0 ↔ y.len = 0) ∧
    0 ≤ (extract_audio_features y sr).rms_energy ∧
    0 ≤ (extract_audio_features y sr).zero_crossing_rate ∧
    (extract_audio_features y sr).zero_crossing_rate ≤ 1 ∧
    ((∀ i, y.sample i = 0) →
      (extract_audio_features y sr).rms_energy = 0 ∧
      (extract_audio_features y sr).zero_crossing_rate = 0) := by
  have hsr' : (0 : ℝ) < sr := by exact_mod_cast hsr
  refine ⟨?_, ?_, ?_, ?_, ?_, ?_⟩
  · exact div_nonneg (Nat.cast_nonneg _) (le_of_lt hsr')
  · show (y.len : ℝ) / sr = 0 ↔ y.len = 0
    rw [div_eq_zero_iff]
    constructor
    · rintro (h | h)
      · exact_mod_cast h
      · exact absurd h (ne_of_gt hsr')
    · intro h
      exact Or.inl (by exact_mod_cast h)
  · show 0 ≤ rms_energy y
    unfold rms_energy
    exact div_nonneg
      (Finset.sum_nonneg fun t _ => by unfold frameRms; exact Real.sqrt_nonneg _)
      (Nat.cast_nonneg _)
  · show 0 ≤ zero_crossing_rate y
    unfold zero_crossing_rate
    exact div_nonneg (Finset.sum_nonneg fun t _ => frameZcr_nonneg y t) (Nat.cast_nonneg _)
  · show zero_crossing_rate y ≤ 1
    unfold zero_crossing_rate
    rw [div_le_one (by exact_mod_cast numFrames_pos y)]
    calc ∑ t ∈ Finset.range (numFrames y), frameZcr y t
        ≤ ∑ t ∈ Finset.range (numFrames y), 1 :=
          Finset.sum_le_sum (fun t _ => frameZcr_le_one y t)
      _ = numFrames y := by simp
  · intro hy
    exact ⟨rms_energy_silent y hy, zero_crossing_rate_silent y hy⟩

/-- Witness for C6 at the silent 3-second clip and 22050 Hz. -/
theorem C6_feature_ranges_witness :
    0 < 22050 ∧
    (0 ≤ (extract_audio_features silentWave 22050).duration ∧
      ((extract_audio_features silentWave 22050).duration = 0 ↔ silentWave.len = 0) ∧
      0 ≤ (extract_audio_features silentWave 22050).rms_energy ∧
      0 ≤ (extract_audio_features silentWave 22050).zero_crossing_rate ∧
      (extract_audio_features silentWave 22050).zero_crossing_rate ≤ 1 ∧
      ((∀ i, silentWave.sample i = 0) →
        (extract_audio_features silentWave 22050).rms_energy = 0 ∧
        (extract_audio_features silentWave 22050).zero_crossing_rate = 0)) :=
  ⟨by decide, C6_feature_ranges silentWave 22050 (by decide)⟩

/-- C8: the embedded extractor is a pure function of the decoded waveform
and sampling rate, so two runs on the same audio input yield exactly equal
values for all four features (equality is exact, hence within any
tolerance). -/
theorem C8_extractor_deterministic (y₁ y₂ : Waveform) (sr₁ sr₂ : Nat)
    (hy : y₁ = y₂) (hsr : sr₁ = sr₂) :
    extract_audio_features y₁ sr₁ = extract_audio_features y₂ sr₂ := by
  subst hy
  subst hsr
  rfl

/-- Witness for C8: two runs at the silent clip. -/
theorem C8_extractor_deterministic_witness :
    silentWave = silentWave ∧ (22050 : Nat) = 22050 ∧
    extract_audio_features silentWave 22050 = extract_audio_features silentWave 22050 :=
  ⟨rfl, rfl, C8_extractor_deterministic silentWave silentWave 22050 22050 rfl rfl⟩

end SafetyApp
